import Mathlib

set_option maxHeartbeats 1000000

/-!
Shallow embedding of the summarize route of the aiagent repository
(src/src/app/api/summarize/route.ts, first variant, lines 1-318).
External effects (SerpAPI search, page fetches, Ollama generation) are
modelled as an explicit environment; JavaScript string operations used by
the route (split on a regex class, trim, join) are modelled faithfully.
-/

namespace Route

/-- Whitespace character class of the JavaScript regular expressions used in
route.ts (the patterns applied by split and trim). -/
def jsWs (c : Char) : Bool :=
  c = ' ' || c = '\t' || c = '\n' || c = '\r' || c = '\x0b' || c = '\x0c' || c = ' '

/-- Splitting a character list on maximal runs of characters satisfying p,
with the semantics of JavaScript String.prototype.split applied to a
one-character-class regex such as the newline-run and whitespace-run
patterns in route.ts: the empty input yields one empty segment, a leading
or trailing run yields a leading or trailing empty segment, and interior
runs collapse to a single boundary. -/
def splitRuns (p : Char → Bool) : List Char → List (List Char)
  | [] => [[]]
  | c :: cs =>
    if p c then
      match cs with
      | [] => [] :: splitRuns p cs
      | c' :: _ => if p c' then splitRuns p cs else [] :: splitRuns p cs
    else
      match splitRuns p cs with
      | [] => [[c]]
      | s :: rest => (c :: s) :: rest

/-- The token list produced by the expression allContent.split on the
whitespace regex in route.ts; its length is the word count the collection
loop and the truncation step compare with the 10000 cap. -/
def wordsOf (s : String) : List (List Char) := splitRuns jsWs s.toList

/-- JavaScript Array.prototype.join with a one-character separator, as used
by the truncation step of the collection phase. -/
def joinSep (sep : Char) : List (List Char) → List Char
  | [] => []
  | [x] => x
  | x :: y :: rest => x ++ sep :: joinSep sep (y :: rest)

/-- The word-cap truncation step of the collection phase in POST: split the
accumulated content into whitespace tokens and, when more than 10000 tokens
are present, keep the first 10000 and join them with single spaces. -/
def truncateContent (s : String) : String :=
  let ws := wordsOf s
  if ws.length > 10000 then String.mk (joinSep ' ' (ws.take 10000)) else s

/-- JavaScript String.prototype.trim on a character list: drop whitespace
from both ends. -/
def jsTrimList (l : List Char) : List Char :=
  ((l.dropWhile jsWs).reverse.dropWhile jsWs).reverse

/-- JavaScript String.prototype.trim. -/
def jsTrimStr (s : String) : String := String.mk (jsTrimList s.toList)

/-- Topic splitting performed by POST: split the syllabus on newline runs,
trim every piece, and discard the pieces that are empty afterwards. -/
def topicsOf (s : String) : List String :=
  ((splitRuns (fun c => c = '\n') s.toList).map (fun l => String.mk (jsTrimList l))).filter
    (fun t => t ≠ "")

/-- Outcome of one HTTP POST to the Ollama generate endpoint: the fetch
promise either rejects (transport-layer error such as a refused connection
or timeout) or resolves with a JSON body whose response field is modelled
as an optional string (none when the field is absent or not a string). -/
inductive GenOutcome
  | raise
  | respond (response : Option String)
deriving DecidableEq

deriving instance DecidableEq for Except

/-- Result of one logical Text-Generation Client call: the value returned
to the caller or a raised transport error, together with the number of
backend fetches the call issued. -/
structure GenRes where
  result : Except Unit String
  calls : Nat
deriving DecidableEq

/-- The ordered candidate model list shared by all generation helpers in
route.ts. -/
def ollamaModels : List String := ["llama3.2:latest", "llama3.1:latest"]

/-- Prompt template of translateTopicWithOllama. -/
def translateTemplate : String :=
  "Translate the following college course topic from Portuguese to English. Only return the English translation, nothing else.\n\n"

/-- Prompt template of summarizeWithOllama. -/
def summarizeTemplate : String :=
  "Summarize the following college course syllabus topic and related web data in clear, professional English prose. Only output the summary itself—do not include any meta tags, social media links, your own thoughts, or commentary. Do not list findings or use bullet points. Do not mention the source website except in the Sources section. Limit to 1-2 paragraphs.Also if you receive an HTML text, dont analyse the HTML but only the human readable text it contains. You should only return the Summary. No comments or any kind of conversation.\n\n"

/-- The model-fallback loop of summarizeWithOllama: try each model in
order; a rejected fetch is not caught inside the function and therefore
raises; a response whose trimmed text is non-empty is returned untrimmed;
otherwise the next model is tried; when all models are exhausted the fixed
sentinel is returned. -/
def summarizeGo (backend : String → String → GenOutcome) (prompt : String) :
    List String → GenRes
  | [] => ⟨.ok "No summary generated.", 0⟩
  | m :: rest =>
    match backend m prompt with
    | .raise => ⟨.error (), 1⟩
    | .respond none =>
      let g := summarizeGo backend prompt rest
      ⟨g.result, g.calls + 1⟩
    | .respond (some r) =>
      if jsTrimStr r ≠ "" then ⟨.ok r, 1⟩
      else
        let g := summarizeGo backend prompt rest
        ⟨g.result, g.calls + 1⟩

/-- The summarization entry point of the Text-Generation Client
(summarizeWithOllama in route.ts). -/
def summarizeWithOllama (backend : String → String → GenOutcome) (text : String) : GenRes :=
  summarizeGo backend (summarizeTemplate ++ text) ollamaModels

/-- The model-fallback loop of translateTopicWithOllama: like the
summarization loop but a successful response is returned trimmed, and
exhausting all models returns the original topic unchanged. -/
def translateGo (backend : String → String → GenOutcome) (prompt topic : String) :
    List String → GenRes
  | [] => ⟨.ok topic, 0⟩
  | m :: rest =>
    match backend m prompt with
    | .raise => ⟨.error (), 1⟩
    | .respond none =>
      let g := translateGo backend prompt topic rest
      ⟨g.result, g.calls + 1⟩
    | .respond (some r) =>
      if jsTrimStr r ≠ "" then ⟨.ok (jsTrimStr r), 1⟩
      else
        let g := translateGo backend prompt topic rest
        ⟨g.result, g.calls + 1⟩

/-- The translation entry point of the Text-Generation Client
(translateTopicWithOllama in route.ts). -/
def translateTopicWithOllama (backend : String → String → GenOutcome) (topic : String) : GenRes :=
  translateGo backend (translateTemplate ++ topic) topic ollamaModels

/-- Outcome of the one HTTP request searchWeb makes to the SerpAPI
endpoint: the fetch promise either rejects (network failure) or resolves
with a status flag and an optional organic results array whose items carry
an optional link field. -/
inductive SearchOutcome
  | raiseNet
  | resp (ok : Bool) (organicResults : Option (List (Option String)))
deriving DecidableEq

/-- Result of one searchWeb call: the URL list returned to the caller or a
raised network error, together with the number of provider requests made. -/
structure SearchRes where
  result : Except Unit (List String)
  calls : Nat
deriving DecidableEq

/-- The Search Gateway (searchWeb in route.ts). Reading the key file is
wrapped in try/catch, so a missing or unreadable credential returns the
empty list without any provider request; a non-success status returns the
empty list; the provider fetch itself is not inside a try block, so a
rejected fetch raises to the caller. On success the link fields of the
organic results are collected in order. -/
def searchWeb (key : Option String) (out : SearchOutcome) : SearchRes :=
  match key with
  | none => ⟨.ok [], 0⟩
  | some _ =>
    match out with
    | .raiseNet => ⟨.error (), 1⟩
    | .resp ok organic =>
      if !ok then ⟨.ok [], 1⟩
      else
        match organic with
        | some items => ⟨.ok (items.filterMap id), 1⟩
        | none => ⟨.ok [], 1⟩

/-- Environment of one submission: the generation backend (model name and
prompt to outcome), the SerpAPI key file content (none when unreadable),
the search provider outcome for a query at a given pass of the collection
loop, and the content extractor output for a URL at a given pass (the
extractor, fetchWebContent, catches every failure and returns the empty
string, so its observable behaviour is just the text it yields). -/
structure Env where
  backend : String → String → GenOutcome
  searchKey : Option String
  searchOut : String → Nat → SearchOutcome
  fetch : Nat → String → String

/-- Mutable scratch state of one topic's collection loop in POST, plus a
log of every URL the content extractor is invoked on and a count of
network calls issued. -/
structure CState where
  allContent : String
  allLinks : List String
  fetchLog : List String
  calls : Nat
deriving DecidableEq

/-- One pass of the inner for-loop of the collection phase: each returned
URL not already recorded as a source link is content-extracted; non-empty
content is appended (preceded by a space) and the URL recorded; the added
flag reports whether the pass contributed any new content. -/
def collectPass (env : Env) (pass : Nat) : List String → CState → Bool → CState × Bool
  | [], st, added => (st, added)
  | url :: rest, st, added =>
    if url ∈ st.allLinks then collectPass env pass rest st added
    else
      let content := env.fetch pass url
      let st1 : CState :=
        { st with fetchLog := st.fetchLog ++ [url], calls := st.calls + 1 }
      if content ≠ "" then
        collectPass env pass rest
          { st1 with
            allContent := st1.allContent ++ " " ++ content,
            allLinks := st1.allLinks ++ [url] } true
      else collectPass env pass rest st1 added

/-- The while-loop of the collection phase: while the accumulated word
count is below 10000 and fewer than 10 passes have run (the remaining
pass budget is the fuel), run one search and one pass, and stop early
when a pass adds no new content. Returns the final state, the number of
passes performed, and whether a search raised (a raised search is not
caught inside the loop and aborts the submission). -/
def collectLoop (env : Env) (query : String) : Nat → Nat → CState → CState × Nat × Bool
  | 0, _, st => (st, 0, false)
  | fuel + 1, pass, st =>
    if (wordsOf st.allContent).length < 10000 then
      let s := searchWeb env.searchKey (env.searchOut query pass)
      let st1 : CState := { st with calls := st.calls + s.calls }
      match s.result with
      | .error _ => (st1, 1, true)
      | .ok urls =>
        let pr := collectPass env pass urls st1 false
        if pr.2 then
          let lr := collectLoop env query fuel (pass + 1) pr.1
          (lr.1, lr.2.1 + 1, lr.2.2)
        else (pr.1, 1, false)
    else (st, 0, false)

/-- Result of one topic's collection run. -/
structure CollectOut where
  content : String
  links : List String
  fetchLog : List String
  passes : Nat
  calls : Nat
  raised : Bool
deriving DecidableEq

/-- The Research Collector for one topic: the collection loop started on
empty state with a budget of 10 passes. -/
def collect (env : Env) (query : String) : CollectOut :=
  let r := collectLoop env query 10 0 ⟨"", [], [], 0⟩
  ⟨r.1.allContent, r.1.allLinks, r.1.fetchLog, r.2.1, r.1.calls, r.2.2⟩

/-- One frame pushed onto the response stream: a STATUS line, the SUMMARY
payload, or the ERROR message. -/
inductive Frame
  | status (text : String)
  | summary (payload : String)
  | error (message : String)
deriving DecidableEq

/-- State of the submission worker: the frames pushed so far, the last
status text pushed (the deduplication state of pushStatus), and the number
of network calls issued so far. -/
structure St where
  frames : List Frame
  lastStatus : String
  calls : Nat
deriving DecidableEq

/-- pushStatus from POST: push a STATUS frame only when the text differs
from the most recently pushed status text. -/
def pushStatus (st : St) (s : String) : St :=
  if s ≠ st.lastStatus then
    { st with frames := st.frames ++ [Frame.status s], lastStatus := s }
  else st

/-- One element of the topicResults array built by POST. -/
structure TopicResult where
  topic : String
  translated : String
  summary : String
  sources : List String
  content : String
deriving DecidableEq

/-- The translation loop of POST: for each topic push a progress status
and translate it; a raised translation aborts the submission (error
carries the state at the raise). -/
def translateLoop (env : Env) (n : Nat) : List String → Nat → St → Except St (St × List String)
  | [], _, st => .ok (st, [])
  | t :: rest, i, st =>
    let st1 := pushStatus st ("Translating topic " ++ toString (i + 1) ++ " of " ++ toString n)
    let g := translateTopicWithOllama env.backend t
    let st2 : St := { st1 with calls := st1.calls + g.calls }
    match g.result with
    | .error _ => .error st2
    | .ok tr =>
      match translateLoop env n rest (i + 1) st2 with
      | .error st3 => .error st3
      | .ok (st3, rs) => .ok (st3, tr :: rs)

/-- The per-topic loop of POST: push a scraping status, run the collector,
truncate the accumulated content to the word cap, push a summarizing
status, summarize, and append the TopicResult; a raised search or
summarization aborts the submission. -/
def topicLoop (env : Env) (n : Nat) :
    List (String × String) → Nat → St → Except St (St × List TopicResult)
  | [], _, st => .ok (st, [])
  | (topic, translated) :: rest, i, st =>
    let st1 := pushStatus st
      ("Scraping for topic " ++ toString (i + 1) ++ " of " ++ toString n ++ ": " ++ translated)
    let c := collect env translated
    let st2 : St := { st1 with calls := st1.calls + c.calls }
    if c.raised then .error st2
    else
      let allContent := truncateContent c.content
      let st3 := pushStatus st2
        ("Summarizing content for topic " ++ toString (i + 1) ++ " of " ++ toString n ++ "...")
      let g := summarizeWithOllama env.backend allContent
      let st4 : St := { st3 with calls := st3.calls + g.calls }
      match g.result with
      | .error _ => .error st4
      | .ok summ =>
        match topicLoop env n rest (i + 1) st4 with
        | .error st5 => .error st5
        | .ok (st5, rs) =>
          .ok (st5, ⟨topic, translated, summ, c.links, allContent⟩ :: rs)

/-- Outcome of the asynchronous work unit of POST: early return on zero
topics, completion with the topic results, or a caught exception. -/
inductive BodyOut
  | earlyNoTopics (st : St)
  | completed (st : St) (results : List TopicResult)
  | raised (st : St)
deriving DecidableEq

/-- Worker state carried by a body outcome. -/
def BodyOut.st : BodyOut → St
  | .earlyNoTopics s => s
  | .completed s _ => s
  | .raised s => s

/-- Whether the body ran to completion with a results list. -/
def BodyOut.isCompleted : BodyOut → Bool
  | .completed _ _ => true
  | _ => false

/-- The asynchronous work unit of POST (the IIFE in route.ts): push the
splitting status, split the syllabus into topics, short-circuit to the
no-topics terminal frame when no topic remains, otherwise translate all
topics, run the per-topic loop, and push the final aggregation status. -/
def runBody (env : Env) (syllabus : String) : BodyOut :=
  let st0 : St := ⟨[], "", 0⟩
  let st1 := pushStatus st0 "Splitting syllabus into topics..."
  let topics := topicsOf syllabus
  if topics = [] then
    .earlyNoTopics { st1 with frames := st1.frames ++ [Frame.summary "No topics found."] }
  else
    let st2 := pushStatus st1 "Translating topics to English..."
    match translateLoop env topics.length topics 0 st2 with
    | .error st3 => .raised st3
    | .ok (st3, translated) =>
      let st4 := pushStatus st3
        "Extracted and translated topics. Scraping the web for each topic..."
      match topicLoop env topics.length (topics.zip translated) 0 st4 with
      | .error st5 => .raised st5
      | .ok (st5, results) =>
        let st6 := pushStatus st5 "Generating final summary document..."
        .completed st6 results

/-- Hexadecimal digit used by the JSON string escaper. -/
def hexDigit (n : Nat) : Char := if n < 10 then Char.ofNat (48 + n) else Char.ofNat (87 + n)

/-- JSON.stringify escaping of one character. -/
def jsonEscapeChar (c : Char) : List Char :=
  if c = '"' then ['\\', '"']
  else if c = '\\' then ['\\', '\\']
  else if c = '\x08' then ['\\', 'b']
  else if c = '\t' then ['\\', 't']
  else if c = '\n' then ['\\', 'n']
  else if c = '\x0c' then ['\\', 'f']
  else if c = '\r' then ['\\', 'r']
  else if c.toNat < 32 then
    ['\\', 'u', '0', '0', hexDigit (c.toNat / 16), hexDigit (c.toNat % 16)]
  else [c]

/-- JSON.stringify of one string. -/
def jsonStr (s : String) : String :=
  "\"" ++ String.mk (s.toList.flatMap jsonEscapeChar) ++ "\""

/-- Serialization of one element of the summary array built by POST: the
keys topic, translated, summary and sources in insertion order (the
content field is not part of the wire shape). -/
def serializeTopicResult (r : TopicResult) : String :=
  "\x7b\"topic\":" ++ jsonStr r.topic ++ ",\"translated\":" ++ jsonStr r.translated ++
    ",\"summary\":" ++ jsonStr r.summary ++ ",\"sources\":[" ++
    String.intercalate "," (r.sources.map jsonStr) ++ "]\x7d"

/-- Serialization of the whole summary array (JSON.stringify of
summaryArray in route.ts). -/
def serializeResults (rs : List TopicResult) : String :=
  "[" ++ String.intercalate "," (rs.map serializeTopicResult) ++ "]"

/-- What the POST operation hands back to the client: the 400 rejection,
a single JSON envelope carrying the serialized summary, or the stream
Response with the frames that were pushed and whether the stream was ever
closed. -/
inductive ClientResponse
  | badRequest
  | jsonEnvelope (summary : String)
  | streamResp (frames : List Frame) (closed : Bool)
deriving DecidableEq

/-- The POST operation of route.ts. The syllabus form field is rejected
when absent, not a string, or empty (the empty string is falsy in
JavaScript, so it fails the missing-field check). Otherwise the worker
body runs, and the function returns the stream Response built over the
frames the body pushed: the value returned inside the asynchronous IIFE is
discarded, so even when the streaming-preference header is absent the
client receives the stream Response, which in that case never carries a
SUMMARY frame and is never closed. -/
def POST (env : Env) (isStatusStream : Bool) (syllabus : Option String) : ClientResponse :=
  match syllabus with
  | none => .badRequest
  | some syl =>
    if syl = "" then .badRequest
    else
      match runBody env syl with
      | .earlyNoTopics st => .streamResp st.frames true
      | .raised st =>
        .streamResp
          (st.frames ++ [Frame.error "An error occurred while processing your request."]) true
      | .completed st results =>
        if isStatusStream then
          .streamResp (st.frames ++ [Frame.summary (serializeResults results)]) true
        else .streamResp st.frames false

/-- Total number of network calls (search provider requests, content
fetches and generation requests) issued while answering a POST request. -/
def POSTcalls (env : Env) (syllabus : Option String) : Nat :=
  match syllabus with
  | none => 0
  | some syl => if syl = "" then 0 else (runBody env syl).st.calls

/-- The status texts of a frame list, in push order. -/
def statusTexts (l : List Frame) : List String :=
  l.filterMap (fun f => match f with | Frame.status s => some s | _ => none)

/-- The frames of a client response (empty for the non-stream rejections). -/
def responseFrames : ClientResponse → List Frame
  | .streamResp f _ => f
  | _ => []

/-! Lemmas about the Text-Generation Client. -/

theorem jsTrimStr_empty : jsTrimStr "" = "" := rfl

theorem ne_empty_of_trim_ne_empty {r : String} (h : jsTrimStr r ≠ "") : r ≠ "" := by
  intro hr
  exact h (hr ▸ jsTrimStr_empty)

theorem summarizeGo_ok_ne_empty (backend : String → String → GenOutcome) (prompt : String) :
    ∀ ms s, (summarizeGo backend prompt ms).result = Except.ok s → s ≠ "" := by
  intro ms
  induction ms with
  | nil =>
    intro s hs
    simp only [summarizeGo] at hs
    cases hs
    decide
  | cons m rest ih =>
    intro s hs
    cases hb : backend m prompt with
    | raise => simp only [summarizeGo, hb] at hs; cases hs
    | respond data =>
      cases data with
      | none =>
        simp only [summarizeGo, hb] at hs
        exact ih s hs
      | some r =>
        simp only [summarizeGo, hb] at hs
        by_cases ht : jsTrimStr r ≠ ""
        · rw [if_pos ht] at hs
          cases hs
          exact ne_empty_of_trim_ne_empty ht
        · rw [if_neg ht] at hs
          exact ih s hs

theorem translateGo_ok_ne_empty (backend : String → String → GenOutcome) (prompt topic : String)
    (htopic : topic ≠ "") :
    ∀ ms s, (translateGo backend prompt topic ms).result = Except.ok s → s ≠ "" := by
  intro ms
  induction ms with
  | nil =>
    intro s hs
    simp only [translateGo] at hs
    cases hs
    exact htopic
  | cons m rest ih =>
    intro s hs
    cases hb : backend m prompt with
    | raise => simp only [translateGo, hb] at hs; cases hs
    | respond data =>
      cases data with
      | none =>
        simp only [translateGo, hb] at hs
        exact ih s hs
      | some r =>
        simp only [translateGo, hb] at hs
        by_cases ht : jsTrimStr r ≠ ""
        · rw [if_pos ht] at hs
          cases hs
          exact ht
        · rw [if_neg ht] at hs
          exact ih s hs

/-- C9: the Text-Generation Client never hands an empty string back to its
caller: when translation returns at all it returns a non-empty string
(either a non-empty trimmed model response or the original non-empty
topic), and when summarization returns at all it returns either a model
response with non-empty trimmed text or the fixed non-empty sentinel. -/
theorem c9_nonempty_generation (backend : String → String → GenOutcome) (topic text : String)
    (htopic : topic ≠ "") :
    (∀ s, (translateTopicWithOllama backend topic).result = Except.ok s → s ≠ "") ∧
      (∀ s, (summarizeWithOllama backend text).result = Except.ok s → s ≠ "") :=
  ⟨fun s hs => translateGo_ok_ne_empty backend (translateTemplate ++ topic) topic htopic
      ollamaModels s hs,
    fun s hs => summarizeGo_ok_ne_empty backend (summarizeTemplate ++ text) ollamaModels s hs⟩

/-- Witness for C9 at a concrete backend whose models all yield no
response: translation falls back to the original topic and summarization
to the sentinel, both non-empty. -/
theorem c9_witness :
    ("t" : String) ≠ "" ∧ ("No summary generated." : String) ≠ "" :=
  ⟨(c9_nonempty_generation (fun _ _ => GenOutcome.respond none) "t" "x" (by decide)).1
      "t" (by decide),
    (c9_nonempty_generation (fun _ _ => GenOutcome.respond none) "t" "x" (by decide)).2
      "No summary generated." (by decide)⟩

/-- Counterexample to C2: a backend whose first model attempt suffers a
transport error while the second model would answer with non-empty text.
Both client calls raise after a single backend call; the remaining
candidate model is never tried. -/
theorem c2_counterexample :
    (summarizeWithOllama
        (fun m _ => if m = "llama3.2:latest" then GenOutcome.raise
          else GenOutcome.respond (some "hello")) "x").result = Except.error () ∧
      (summarizeWithOllama
        (fun m _ => if m = "llama3.2:latest" then GenOutcome.raise
          else GenOutcome.respond (some "hello")) "x").calls = 1 ∧
      (translateTopicWithOllama
        (fun m _ => if m = "llama3.2:latest" then GenOutcome.raise
          else GenOutcome.respond (some "hello")) "t").result = Except.error () := by
  decide

/-- C2 as amended: a transport-layer error on a model attempt is not
caught inside the Text-Generation Client: the call raises to its caller
after that single attempt and the remaining candidates are not tried.
Only a successful but empty (or malformed) response causes the next
candidate model to be consulted. -/
theorem c2_transport_error_propagates (b1 b2 : String → String → GenOutcome)
    (text topic : String)
    (h1s : b1 "llama3.2:latest" (summarizeTemplate ++ text) = GenOutcome.raise)
    (h1t : b1 "llama3.2:latest" (translateTemplate ++ topic) = GenOutcome.raise)
    (h2s : b2 "llama3.2:latest" (summarizeTemplate ++ text) = GenOutcome.respond none)
    (h2t : b2 "llama3.2:latest" (translateTemplate ++ topic) = GenOutcome.respond none) :
    ((summarizeWithOllama b1 text).result = Except.error () ∧
        (summarizeWithOllama b1 text).calls = 1) ∧
      ((translateTopicWithOllama b1 topic).result = Except.error () ∧
        (translateTopicWithOllama b1 topic).calls = 1) ∧
      ((summarizeWithOllama b2 text).calls = 2 ∧
        ((summarizeWithOllama b2 text).result = Except.error () ↔
          b2 "llama3.1:latest" (summarizeTemplate ++ text) = GenOutcome.raise)) ∧
      ((translateTopicWithOllama b2 topic).calls = 2 ∧
        ((translateTopicWithOllama b2 topic).result = Except.error () ↔
          b2 "llama3.1:latest" (translateTemplate ++ topic) = GenOutcome.raise)) := by
  refine ⟨⟨?_, ?_⟩, ⟨?_, ?_⟩, ⟨?_, ?_⟩, ⟨?_, ?_⟩⟩ <;>
    simp only [summarizeWithOllama, translateTopicWithOllama, ollamaModels, summarizeGo,
      translateGo, h1s, h1t, h2s, h2t]
  · cases hb : b2 "llama3.1:latest" (summarizeTemplate ++ text) with
    | raise => rfl
    | respond data => cases data <;> simp only [] <;> split <;> rfl
  · cases hb : b2 "llama3.1:latest" (summarizeTemplate ++ text) with
    | raise => simp
    | respond data =>
      cases data with
      | none => simp [hb]
      | some r =>
        by_cases ht : jsTrimStr r ≠ ""
        · simp [hb, ht]
        · simp [hb, ht]
  · cases hb : b2 "llama3.1:latest" (translateTemplate ++ topic) with
    | raise => rfl
    | respond data => cases data <;> simp only [] <;> split <;> rfl
  · cases hb : b2 "llama3.1:latest" (translateTemplate ++ topic) with
    | raise => simp
    | respond data =>
      cases data with
      | none => simp [hb]
      | some r =>
        by_cases ht : jsTrimStr r ≠ ""
        · simp [hb, ht]
        · simp [hb, ht]

/-- Witness for C2 as amended, at a raising first backend and an
empty-responding first backend. -/
theorem c2_witness :
    ((summarizeWithOllama (fun _ _ => GenOutcome.raise) "x").result = Except.error () ∧
        (summarizeWithOllama (fun _ _ => GenOutcome.raise) "x").calls = 1) ∧
      ((translateTopicWithOllama (fun _ _ => GenOutcome.raise) "t").result = Except.error () ∧
        (translateTopicWithOllama (fun _ _ => GenOutcome.raise) "t").calls = 1) ∧
      ((summarizeWithOllama (fun _ _ => GenOutcome.respond none) "x").calls = 2 ∧
        ((summarizeWithOllama (fun _ _ => GenOutcome.respond none) "x").result =
            Except.error () ↔
          (fun (_ _ : String) => GenOutcome.respond none) "llama3.1:latest"
              (summarizeTemplate ++ "x") = GenOutcome.raise)) ∧
      ((translateTopicWithOllama (fun _ _ => GenOutcome.respond none) "t").calls = 2 ∧
        ((translateTopicWithOllama (fun _ _ => GenOutcome.respond none) "t").result =
            Except.error () ↔
          (fun (_ _ : String) => GenOutcome.respond none) "llama3.1:latest"
              (translateTemplate ++ "t") = GenOutcome.raise)) :=
  c2_transport_error_propagates (fun _ _ => GenOutcome.raise)
    (fun _ _ => GenOutcome.respond none) "x" "t" rfl rfl rfl rfl

/-- Counterexample to C3: with a readable credential, a network failure of
the provider request makes searchWeb raise instead of returning the empty
sequence. -/
theorem c3_counterexample :
    (searchWeb (some "k") SearchOutcome.raiseNet).result = Except.error () := by
  decide

/-- C3 as amended: the Search Gateway returns the empty sequence without
raising when the credential file is unreadable (making no provider
request) and when the provider answers with a non-success status, but a
network failure of the provider request itself propagates to the caller
as a raised fault. -/
theorem c3_soft_and_hard_failures (out : SearchOutcome) (k : String)
    (organic : Option (List (Option String))) :
    ((searchWeb none out).result = Except.ok [] ∧ (searchWeb none out).calls = 0) ∧
      (searchWeb (some k) (SearchOutcome.resp false organic)).result = Except.ok [] ∧
      (searchWeb (some k) SearchOutcome.raiseNet).result = Except.error () := by
  refine ⟨⟨rfl, rfl⟩, ?_, rfl⟩
  simp [searchWeb]

/-! Lemmas about the Research Collector. -/

theorem collectLoop_passes_le (env : Env) (query : String) :
    ∀ fuel pass st, (collectLoop env query fuel pass st).2.1 ≤ fuel := by
  intro fuel
  induction fuel with
  | zero => intro pass st; simp [collectLoop]
  | succ n ih =>
    intro pass st
    simp only [collectLoop]
    split
    · cases hres : (searchWeb env.searchKey (env.searchOut query pass)).result with
      | error e => simp [hres]
      | ok urls =>
        simp only [hres]
        split
        · exact Nat.succ_le_succ (ih (pass + 1) _)
        · exact Nat.succ_le_succ (Nat.zero_le n)
    · simp

/-- C8: for every environment (in particular one whose search provider
returns identical results on every call) the collection loop of a topic
performs at most 10 passes; the loop is a total function of the pass
budget, so it terminates. -/
theorem c8_pass_bound (env : Env) (query : String) : (collect env query).passes ≤ 10 :=
  collectLoop_passes_le env query 10 0 ⟨"", [], [], 0⟩

theorem nodup_push {α : Type} [DecidableEq α] {l : List α} {a : α}
    (h : l.Nodup) (ha : a ∉ l) : (l ++ [a]).Nodup := by
  simp [List.nodup_append, h, ha]

theorem collectPass_nodup (env : Env) (pass : Nat) :
    ∀ urls st added, st.allLinks.Nodup →
      ((collectPass env pass urls st added).1).allLinks.Nodup := by
  intro urls
  induction urls with
  | nil => intro st added h; simpa [collectPass] using h
  | cons url rest ih =>
    intro st added h
    simp only [collectPass]
    split
    · exact ih st added h
    · split
      · exact ih _ true (nodup_push h (by assumption))
      · exact ih _ added h

theorem collectLoop_nodup (env : Env) (query : String) :
    ∀ fuel pass st, st.allLinks.Nodup →
      ((collectLoop env query fuel pass st).1).allLinks.Nodup := by
  intro fuel
  induction fuel with
  | zero => intro pass st h; simpa [collectLoop] using h
  | succ n ih =>
    intro pass st h
    simp only [collectLoop]
    split
    · cases hres : (searchWeb env.searchKey (env.searchOut query pass)).result with
      | error e => simpa [hres] using h
      | ok urls =>
        simp only [hres]
        split
        · exact ih (pass + 1) _ (collectPass_nodup env pass urls _ false h)
        · exact collectPass_nodup env pass urls _ false h
    · simpa using h

/-- C6 as amended: the source links accumulated for a topic are unique
(a URL is recorded at most once); a URL is only content-extracted while it
is absent from the accumulated set, but a URL whose extraction returned
empty content is not recorded and may therefore be content-extracted again
on a later pass of the collection loop. -/
theorem c6_sources_nodup (env : Env) (query : String) : (collect env query).links.Nodup :=
  collectLoop_nodup env query 10 0 ⟨"", [], [], 0⟩ (by simp)

/-- Counterexample to C6: a provider that returns the URLs a and b on
every pass, where a yields content and b yields none. The first pass adds
content (from a), so a second pass runs, and b, still absent from the
accumulated set, is content-extracted a second time. -/
theorem c6_counterexample :
    (collect
        { backend := fun _ _ => GenOutcome.respond none
          searchKey := some "k"
          searchOut := fun _ _ => SearchOutcome.resp true (some [some "a", some "b"])
          fetch := fun _ url => if url = "a" then "x" else "" } "q").fetchLog =
        ["a", "b", "b"] ∧
      (collect
        { backend := fun _ _ => GenOutcome.respond none
          searchKey := some "k"
          searchOut := fun _ _ => SearchOutcome.resp true (some [some "a", some "b"])
          fetch := fun _ url => if url = "a" then "x" else "" } "q").fetchLog.count "b" = 2 := by
  decide

/-! Machinery for the status-deduplication invariant of the output
stream. -/

/-- Invariant of the worker state: the status texts pushed so far have no
two equal neighbours, and the pushStatus deduplication state equals the
last pushed status text (the initial empty string when none was pushed). -/
def StInv (st : St) : Prop :=
  (statusTexts st.frames).Chain' (· ≠ ·) ∧
    (statusTexts st.frames).getLastD "" = st.lastStatus

theorem statusTexts_append (l1 l2 : List Frame) :
    statusTexts (l1 ++ l2) = statusTexts l1 ++ statusTexts l2 := by
  simp [statusTexts]

theorem statusTexts_status (s : String) : statusTexts [Frame.status s] = [s] := rfl

theorem statusTexts_summary (s : String) : statusTexts [Frame.summary s] = [] := rfl

theorem statusTexts_error (s : String) : statusTexts [Frame.error s] = [] := rfl

theorem getLastD_append_single {α : Type} (l : List α) (a d : α) :
    (l ++ [a]).getLastD d = a := by
  cases l <;> simp [List.getLastD]

theorem chain'_push (d : String) {l : List String} {a : String} (h : l.Chain' (· ≠ ·))
    (hne : a ≠ l.getLastD d) :
    (l ++ [a]).Chain' (· ≠ ·) := by
  rw [List.chain'_append]
  refine ⟨h, List.chain'_singleton a, ?_⟩
  intro x hx y hy
  cases l with
  | nil => simp at hx
  | cons b t =>
    simp only [List.head?_cons, Option.mem_def, Option.some.injEq] at hy
    subst hy
    have hxl : x = (b :: t).getLastD d := by
      have := List.getLast?_eq_getLast (b :: t) (by simp)
      rw [this] at hx
      simp only [Option.mem_def, Option.some.injEq] at hx
      subst hx
      simp [List.getLastD_eq_getLast?, this]
    intro hxy
    exact hne (by rw [← hxy, hxl])

theorem pushStatus_inv {st : St} (h : StInv st) (s : String) : StInv (pushStatus st s) := by
  unfold pushStatus
  split
  · rename_i hne
    constructor
    · rw [statusTexts_append, statusTexts_status]
      refine chain'_push "" h.1 ?_
      rw [h.2]
      exact fun hs => hne hs
    · rw [statusTexts_append, statusTexts_status, getLastD_append_single]
  · exact h

theorem calls_update_inv {st : St} (h : StInv st) (c : Nat) :
    StInv { st with calls := c } := h

theorem translateLoop_inv (env : Env) (n : Nat) :
    ∀ ts i st, StInv st →
      (∀ st' rs, translateLoop env n ts i st = .ok (st', rs) → StInv st') ∧
        (∀ st', translateLoop env n ts i st = .error st' → StInv st') := by
  intro ts
  induction ts with
  | nil =>
    intro i st h
    constructor
    · intro st' rs hok
      simp only [translateLoop] at hok
      cases hok
      exact h
    · intro st' hok
      simp only [translateLoop] at hok
      cases hok
  | cons t rest ih =>
    intro i st h
    have h2 : StInv { pushStatus st ("Translating topic " ++ toString (i + 1) ++ " of " ++
        toString n) with
        calls := (pushStatus st ("Translating topic " ++ toString (i + 1) ++ " of " ++
          toString n)).calls + (translateTopicWithOllama env.backend t).calls } :=
      calls_update_inv (pushStatus_inv h _) _
    constructor
    · intro st' rs hok
      simp only [translateLoop] at hok
      cases hres : (translateTopicWithOllama env.backend t).result with
      | error e => rw [hres] at hok; cases hok
      | ok tr =>
        rw [hres] at hok
        cases hrec : translateLoop env n rest (i + 1) _ with
        | error st3 => rw [hrec] at hok; cases hok
        | ok p =>
          rw [hrec] at hok
          cases hok
          exact (ih (i + 1) _ h2).1 p.1 p.2 hrec
    · intro st' hok
      simp only [translateLoop] at hok
      cases hres : (translateTopicWithOllama env.backend t).result with
      | error e =>
        rw [hres] at hok
        cases hok
        exact h2
      | ok tr =>
        rw [hres] at hok
        cases hrec : translateLoop env n rest (i + 1) _ with
        | error st3 =>
          rw [hrec] at hok
          cases hok
          exact (ih (i + 1) _ h2).2 st' hrec
        | ok p => rw [hrec] at hok; cases hok

theorem stinv_of_eq {st st' : St} (h : StInv st) (hf : st'.frames = st.frames)
    (hl : st'.lastStatus = st.lastStatus) : StInv st' := by
  unfold StInv
  rw [hf, hl]
  exact h

theorem topicLoop_inv (env : Env) (n : Nat) :
    ∀ ps i st, StInv st →
      (∀ st' rs, topicLoop env n ps i st = .ok (st', rs) → StInv st') ∧
        (∀ st', topicLoop env n ps i st = .error st' → StInv st') := by
  intro ps
  induction ps with
  | nil =>
    intro i st h
    constructor
    · intro st' rs hok
      simp only [topicLoop] at hok
      cases hok
      exact h
    · intro st' hok
      simp only [topicLoop] at hok
      cases hok
  | cons p rest ih =>
    obtain ⟨topic, translated⟩ := p
    intro i st h
    constructor
    · intro st' rs hok
      simp only [topicLoop] at hok
      split at hok
      · cases hok
      · split at hok
        · cases hok
        · split at hok
          · cases hok
          · cases hok
            rename_i heq
            refine (ih (i + 1) _ ?_).1 _ _ heq
            refine stinv_of_eq (pushStatus_inv ?_ _) rfl rfl
            exact stinv_of_eq (pushStatus_inv h _) rfl rfl
    · intro st' hok
      simp only [topicLoop] at hok
      split at hok
      · cases hok
        exact stinv_of_eq (pushStatus_inv h _) rfl rfl
      · split at hok
        · cases hok
          refine stinv_of_eq (pushStatus_inv ?_ _) rfl rfl
          exact stinv_of_eq (pushStatus_inv h _) rfl rfl
        · split at hok
          · cases hok
            rename_i heq
            refine (ih (i + 1) _ ?_).2 _ heq
            refine stinv_of_eq (pushStatus_inv ?_ _) rfl rfl
            exact stinv_of_eq (pushStatus_inv h _) rfl rfl
          · cases hok

theorem runBody_inv (env : Env) (syl : String) : StInv (runBody env syl).st := by
  have h0 : StInv (⟨[], "", 0⟩ : St) := ⟨List.chain'_nil, rfl⟩
  have h1 : StInv (pushStatus ⟨[], "", 0⟩ "Splitting syllabus into topics...") :=
    pushStatus_inv h0 _
  unfold runBody
  by_cases htop : topicsOf syl = []
  · rw [if_pos htop]
    simp only [BodyOut.st]
    constructor
    · rw [statusTexts_append, statusTexts_summary, List.append_nil]
      exact h1.1
    · rw [statusTexts_append, statusTexts_summary, List.append_nil]
      exact h1.2
  · rw [if_neg htop]
    have h2 : StInv (pushStatus (pushStatus ⟨[], "", 0⟩ "Splitting syllabus into topics...")
        "Translating topics to English...") := pushStatus_inv h1 _
    cases htr : translateLoop env (topicsOf syl).length (topicsOf syl) 0
        (pushStatus (pushStatus ⟨[], "", 0⟩ "Splitting syllabus into topics...")
          "Translating topics to English...") with
    | error st3 =>
      simp only [htr, BodyOut.st]
      exact (translateLoop_inv env (topicsOf syl).length (topicsOf syl) 0 _ h2).2 st3 htr
    | ok pr =>
      obtain ⟨st3, translated⟩ := pr
      have h3 : StInv st3 :=
        (translateLoop_inv env (topicsOf syl).length (topicsOf syl) 0 _ h2).1 st3 translated htr
      have h4 : StInv (pushStatus st3
          "Extracted and translated topics. Scraping the web for each topic...") :=
        pushStatus_inv h3 _
      simp only [htr]
      cases htl : topicLoop env (topicsOf syl).length ((topicsOf syl).zip translated) 0
          (pushStatus st3
            "Extracted and translated topics. Scraping the web for each topic...") with
      | error st5 =>
        simp only [htl, BodyOut.st]
        exact (topicLoop_inv env (topicsOf syl).length ((topicsOf syl).zip translated) 0 _ h4).2
          st5 htl
      | ok q =>
        obtain ⟨st5, results⟩ := q
        have h5 : StInv st5 :=
          (topicLoop_inv env (topicsOf syl).length ((topicsOf syl).zip translated) 0 _ h4).1
            st5 results htl
        simp only [htl, BodyOut.st]
        exact pushStatus_inv h5 _

/-- C10: in the frame sequence of any POST response, no two consecutive
STATUS frames carry the same text: pushStatus pushes a status frame only
when its text differs from the most recently pushed status text. -/
theorem c10_status_dedup (env : Env) (isStatusStream : Bool) (syllabus : Option String) :
    (statusTexts (responseFrames (POST env isStatusStream syllabus))).Chain' (· ≠ ·) := by
  cases syllabus with
  | none => exact List.chain'_nil
  | some syl =>
    by_cases hemp : syl = ""
    · simp only [POST, if_pos hemp]
      exact List.chain'_nil
    · have hinv := runBody_inv env syl
      cases hb : runBody env syl with
      | earlyNoTopics st =>
        rw [hb] at hinv
        simp only [POST, if_neg hemp, hb, responseFrames]
        exact hinv.1
      | raised st =>
        rw [hb] at hinv
        simp only [POST, if_neg hemp, hb, responseFrames, statusTexts_append, statusTexts_error,
          List.append_nil]
        exact hinv.1
      | completed st results =>
        rw [hb] at hinv
        cases isStatusStream with
        | true =>
          simp only [POST, if_neg hemp, hb, if_true, responseFrames, statusTexts_append,
            statusTexts_summary, List.append_nil]
          exact hinv.1
        | false =>
          simp only [POST, if_neg hemp, hb, if_false, responseFrames]
          exact hinv.1

/-! Lemmas for failure isolation of the submission orchestrator. -/

/-- An environment in which no external call raises: every backend fetch
resolves (possibly with an unusable body) and every search provider
request resolves (possibly with a non-success status). -/
def Env.NoRaise (env : Env) : Prop :=
  (∀ m p, env.backend m p ≠ GenOutcome.raise) ∧
    ∀ q n, env.searchOut q n ≠ SearchOutcome.raiseNet

theorem translateGo_no_raise {backend : String → String → GenOutcome}
    (hb : ∀ m p, backend m p ≠ GenOutcome.raise) (prompt topic : String) :
    ∀ ms, ∃ s, (translateGo backend prompt topic ms).result = Except.ok s := by
  intro ms
  induction ms with
  | nil => exact ⟨topic, rfl⟩
  | cons m rest ih =>
    cases hbm : backend m prompt with
    | raise => exact absurd hbm (hb m prompt)
    | respond data =>
      cases data with
      | none => simpa [translateGo, hbm] using ih
      | some r =>
        by_cases ht : jsTrimStr r ≠ ""
        · exact ⟨jsTrimStr r, by simp [translateGo, hbm, ht]⟩
        · simpa [translateGo, hbm, ht] using ih

theorem summarizeGo_no_raise {backend : String → String → GenOutcome}
    (hb : ∀ m p, backend m p ≠ GenOutcome.raise) (prompt : String) :
    ∀ ms, ∃ s, (summarizeGo backend prompt ms).result = Except.ok s := by
  intro ms
  induction ms with
  | nil => exact ⟨"No summary generated.", rfl⟩
  | cons m rest ih =>
    cases hbm : backend m prompt with
    | raise => exact absurd hbm (hb m prompt)
    | respond data =>
      cases data with
      | none => simpa [summarizeGo, hbm] using ih
      | some r =>
        by_cases ht : jsTrimStr r ≠ ""
        · exact ⟨r, by simp [summarizeGo, hbm, ht]⟩
        · simpa [summarizeGo, hbm, ht] using ih

theorem searchWeb_no_raise {out : SearchOutcome} (hout : out ≠ SearchOutcome.raiseNet)
    (key : Option String) : ∃ urls, (searchWeb key out).result = Except.ok urls := by
  cases key with
  | none => exact ⟨[], rfl⟩
  | some k =>
    cases out with
    | raiseNet => exact absurd rfl hout
    | resp ok organic =>
      cases ok with
      | false => exact ⟨[], rfl⟩
      | true =>
        cases organic with
        | none => exact ⟨[], rfl⟩
        | some items => exact ⟨items.filterMap id, rfl⟩

theorem collectLoop_no_raise {env : Env} {query : String}
    (hs : ∀ n, env.searchOut query n ≠ SearchOutcome.raiseNet) :
    ∀ fuel pass st, (collectLoop env query fuel pass st).2.2 = false := by
  intro fuel
  induction fuel with
  | zero => intro pass st; simp [collectLoop]
  | succ n ih =>
    intro pass st
    simp only [collectLoop]
    split
    · cases hres : (searchWeb env.searchKey (env.searchOut query pass)).result with
      | error e =>
        obtain ⟨urls, hurls⟩ := searchWeb_no_raise (hs pass) env.searchKey
        rw [hres] at hurls
        simp at hurls
      | ok urls =>
        simp only [hres]
        split
        · exact ih (pass + 1) _
        · rfl
    · rfl

theorem collect_no_raise {env : Env} {query : String}
    (hs : ∀ n, env.searchOut query n ≠ SearchOutcome.raiseNet) :
    (collect env query).raised = false :=
  collectLoop_no_raise hs 10 0 ⟨"", [], [], 0⟩

theorem translateLoop_ok {env : Env} (hb : ∀ m p, env.backend m p ≠ GenOutcome.raise)
    (n : Nat) : ∀ ts i st, ∃ st' rs,
      translateLoop env n ts i st = .ok (st', rs) ∧ rs.length = ts.length := by
  intro ts
  induction ts with
  | nil => exact fun i st => ⟨st, [], rfl, rfl⟩
  | cons t rest ih =>
    intro i st
    obtain ⟨s, hs⟩ := translateGo_no_raise hb (translateTemplate ++ t) t ollamaModels
    have hs' : (translateTopicWithOllama env.backend t).result = Except.ok s := hs
    obtain ⟨st', rs, hrec, hlen⟩ := ih (i + 1)
      ⟨(pushStatus st ("Translating topic " ++ toString (i + 1) ++ " of " ++
          toString n)).frames,
        (pushStatus st ("Translating topic " ++ toString (i + 1) ++ " of " ++
          toString n)).lastStatus,
        (pushStatus st ("Translating topic " ++ toString (i + 1) ++ " of " ++
          toString n)).calls + (translateTopicWithOllama env.backend t).calls⟩
    refine ⟨st', s :: rs, ?_, by simp [hlen]⟩
    simp only [translateLoop, hs', hrec]

theorem topicLoop_ok {env : Env} (hb : ∀ m p, env.backend m p ≠ GenOutcome.raise)
    (hsearch : ∀ q n, env.searchOut q n ≠ SearchOutcome.raiseNet) (n : Nat) :
    ∀ ps i st, ∃ st' rs,
      topicLoop env n ps i st = .ok (st', rs) ∧ rs.length = ps.length ∧
        rs.map (fun r => r.topic) = ps.map Prod.fst := by
  intro ps
  induction ps with
  | nil => exact fun i st => ⟨st, [], rfl, rfl, rfl⟩
  | cons p rest ih =>
    obtain ⟨topic, translated⟩ := p
    intro i st
    have hraised : (collect env translated).raised = false :=
      collect_no_raise (fun m => hsearch translated m)
    obtain ⟨summ, hsumm⟩ := summarizeGo_no_raise hb
      (summarizeTemplate ++ truncateContent (collect env translated).content) ollamaModels
    have hsumm' : (summarizeWithOllama env.backend
        (truncateContent (collect env translated).content)).result = Except.ok summ := hsumm
    obtain ⟨st', rs, hrec, hlen, hmap⟩ := ih (i + 1)
      ⟨(pushStatus
          ⟨(pushStatus st ("Scraping for topic " ++ toString (i + 1) ++ " of " ++
              toString n ++ ": " ++ translated)).frames,
            (pushStatus st ("Scraping for topic " ++ toString (i + 1) ++ " of " ++
              toString n ++ ": " ++ translated)).lastStatus,
            (pushStatus st ("Scraping for topic " ++ toString (i + 1) ++ " of " ++
              toString n ++ ": " ++ translated)).calls + (collect env translated).calls⟩
          ("Summarizing content for topic " ++ toString (i + 1) ++ " of " ++
            toString n ++ "...")).frames,
        (pushStatus
          ⟨(pushStatus st ("Scraping for topic " ++ toString (i + 1) ++ " of " ++
              toString n ++ ": " ++ translated)).frames,
            (pushStatus st ("Scraping for topic " ++ toString (i + 1) ++ " of " ++
              toString n ++ ": " ++ translated)).lastStatus,
            (pushStatus st ("Scraping for topic " ++ toString (i + 1) ++ " of " ++
              toString n ++ ": " ++ translated)).calls + (collect env translated).calls⟩
          ("Summarizing content for topic " ++ toString (i + 1) ++ " of " ++
            toString n ++ "...")).lastStatus,
        (pushStatus
          ⟨(pushStatus st ("Scraping for topic " ++ toString (i + 1) ++ " of " ++
              toString n ++ ": " ++ translated)).frames,
            (pushStatus st ("Scraping for topic " ++ toString (i + 1) ++ " of " ++
              toString n ++ ": " ++ translated)).lastStatus,
            (pushStatus st ("Scraping for topic " ++ toString (i + 1) ++ " of " ++
              toString n ++ ": " ++ translated)).calls + (collect env translated).calls⟩
          ("Summarizing content for topic " ++ toString (i + 1) ++ " of " ++
            toString n ++ "...")).calls +
          (summarizeWithOllama env.backend
            (truncateContent (collect env translated).content)).calls⟩
    refine ⟨st', ⟨topic, translated, summ, (collect env translated).links,
      truncateContent (collect env translated).content⟩ :: rs, ?_, by simp [hlen], by
        simp [hmap]⟩
    simp only [topicLoop, hraised, hsumm', hrec, Bool.false_eq_true, if_false]

/-- Counterexample to C4: with a backend whose fetches all reject (a
transport failure), the failure of the first topic's translation is not
contained to that topic: the whole submission aborts with a single
terminal ERROR frame, the second topic is never processed, and no
SubmissionResult is produced at all. -/
theorem c4_counterexample :
    POST
        { backend := fun _ _ => GenOutcome.raise
          searchKey := none
          searchOut := fun _ _ => SearchOutcome.resp true none
          fetch := fun _ _ => "" } true (some "a\nb") =
      ClientResponse.streamResp
        [Frame.status "Splitting syllabus into topics...",
          Frame.status "Translating topics to English...",
          Frame.status "Translating topic 1 of 2",
          Frame.error "An error occurred while processing your request."] true ∧
      (runBody
        { backend := fun _ _ => GenOutcome.raise
          searchKey := none
          searchOut := fun _ _ => SearchOutcome.resp true none
          fetch := fun _ _ => "" } "a\nb").isCompleted = false := by
  decide

/-- C4 as amended: as long as no external call raises at the transport
layer, per-topic degradation (empty search results, empty extractions,
empty generation responses) never aborts the submission: the body runs to
completion and produces exactly one TopicResult per topic, in input
order. A raised transport fault, by contrast, aborts the whole submission
(see the counterexample). -/
theorem c4_isolation_without_raise (env : Env) (syl : String) (h : env.NoRaise)
    (ht : topicsOf syl ≠ []) :
    ∃ st results, runBody env syl = BodyOut.completed st results ∧
      results.length = (topicsOf syl).length ∧
      results.map (fun r => r.topic) = topicsOf syl := by
  obtain ⟨hb, hsearch⟩ := h
  obtain ⟨st3, translated, htr, hlen⟩ := translateLoop_ok hb (topicsOf syl).length
    (topicsOf syl) 0
    (pushStatus (pushStatus ⟨[], "", 0⟩ "Splitting syllabus into topics...")
      "Translating topics to English...")
  obtain ⟨st5, results, htl, hlen2, hmap⟩ := topicLoop_ok hb hsearch (topicsOf syl).length
    ((topicsOf syl).zip translated) 0
    (pushStatus st3 "Extracted and translated topics. Scraping the web for each topic...")
  refine ⟨pushStatus st5 "Generating final summary document...", results, ?_, ?_, ?_⟩
  · simp only [runBody, if_neg ht, htr, htl]
  · rw [hlen2, List.length_zip, hlen, Nat.min_self]
  · rw [hmap, List.map_fst_zip]
    exact le_of_eq hlen.symm

/-- Witness for C4 as amended, at a two-topic syllabus and an environment
whose search provider is never consulted successfully (no credential) and
whose models always answer: both topics produce a TopicResult. -/
theorem c4_witness :
    ∃ st results, runBody
        { backend := fun _ _ => GenOutcome.respond (some "T")
          searchKey := none
          searchOut := fun _ _ => SearchOutcome.resp true none
          fetch := fun _ _ => "" } "a\nb" = BodyOut.completed st results ∧
      results.length = (topicsOf "a\nb").length ∧
      results.map (fun r => r.topic) = topicsOf "a\nb" :=
  c4_isolation_without_raise
    { backend := fun _ _ => GenOutcome.respond (some "T")
      searchKey := none
      searchOut := fun _ _ => SearchOutcome.resp true none
      fetch := fun _ _ => "" } "a\nb"
    ⟨fun _ _ h => GenOutcome.noConfusion h, fun _ _ h => SearchOutcome.noConfusion h⟩
    (by decide)

/-- Counterexample to C5: the empty-string input does not reach the
pipeline at all; because the empty string is falsy in JavaScript it fails
the missing-field check and the request is rejected with the Missing
syllabus error, not answered with the no-topics terminal signal. -/
theorem c5_counterexample :
    POST
        { backend := fun _ _ => GenOutcome.respond none
          searchKey := none
          searchOut := fun _ _ => SearchOutcome.resp true none
          fetch := fun _ _ => "" } true (some "") = ClientResponse.badRequest := by
  decide

/-- C5 as amended: every non-empty whitespace-only input (every input
whose topic split leaves nothing) short-circuits to the single no-topics
terminal frame after the one splitting status, with zero network calls;
the empty-string input is instead rejected up front as a missing syllabus,
likewise without any network call. -/
theorem c5_whitespace_short_circuit (env : Env) (isStatusStream : Bool) (syl : String)
    (hne : syl ≠ "") (h : topicsOf syl = []) :
    POST env isStatusStream (some syl) =
      ClientResponse.streamResp
        [Frame.status "Splitting syllabus into topics...", Frame.summary "No topics found."]
        true ∧
      POSTcalls env (some syl) = 0 := by
  have hb : runBody env syl = BodyOut.earlyNoTopics
      ⟨[Frame.status "Splitting syllabus into topics...", Frame.summary "No topics found."],
        "Splitting syllabus into topics...", 0⟩ := by
    unfold runBody
    rw [h]
    rfl
  constructor
  · simp only [POST, if_neg hne, hb]
  · simp only [POSTcalls, if_neg hne, hb, BodyOut.st]

/-- Witness for C5 as amended at the one-space input. -/
theorem c5_witness :
    POST
        { backend := fun _ _ => GenOutcome.respond none
          searchKey := none
          searchOut := fun _ _ => SearchOutcome.resp true none
          fetch := fun _ _ => "" } true (some " ") =
      ClientResponse.streamResp
        [Frame.status "Splitting syllabus into topics...", Frame.summary "No topics found."]
        true ∧
      POSTcalls
        { backend := fun _ _ => GenOutcome.respond none
          searchKey := none
          searchOut := fun _ _ => SearchOutcome.resp true none
          fetch := fun _ _ => "" } (some " ") = 0 :=
  c5_whitespace_short_circuit _ true " " (by decide) (by decide)

/-- C1 is violated by the code: for a request without the streaming
preference the worker still runs and the final JSON envelope is built, but
the value returned inside the asynchronous IIFE is discarded, so the
client receives the stream Response with only status frames, no SUMMARY
frame, and the stream is never closed; the single JSON envelope is never
what the client gets. -/
theorem c1_streaming_bug :
    POST
        { backend := fun _ _ => GenOutcome.respond (some "ok")
          searchKey := none
          searchOut := fun _ _ => SearchOutcome.resp true none
          fetch := fun _ _ => "" } false (some "a") =
      ClientResponse.streamResp
        [Frame.status "Splitting syllabus into topics...",
          Frame.status "Translating topics to English...",
          Frame.status "Translating topic 1 of 1",
          Frame.status "Extracted and translated topics. Scraping the web for each topic...",
          Frame.status "Scraping for topic 1 of 1: ok",
          Frame.status "Summarizing content for topic 1 of 1...",
          Frame.status "Generating final summary document..."] false ∧
      (runBody
        { backend := fun _ _ => GenOutcome.respond (some "ok")
          searchKey := none
          searchOut := fun _ _ => SearchOutcome.resp true none
          fetch := fun _ _ => "" } "a").isCompleted = true := by
  decide

/-! Lemmas for the word-cap truncation (splitting on whitespace runs and
joining with single spaces). -/

theorem splitRuns_nil (p : Char → Bool) : splitRuns p [] = [[]] := rfl

theorem splitRuns_sep_nil {p : Char → Bool} {a : Char} (ha : p a = true) :
    splitRuns p [a] = [[], []] := by
  conv_lhs => rw [splitRuns.eq_def]
  simp [ha, splitRuns_nil]

theorem splitRuns_two_sep {p : Char → Bool} {a b : Char} (ha : p a = true)
    (hb : p b = true) (cs : List Char) :
    splitRuns p (a :: b :: cs) = splitRuns p (b :: cs) := by
  conv_lhs => rw [splitRuns.eq_def]
  simp [ha, hb]

theorem splitRuns_sep_cons {p : Char → Bool} {a b : Char} (ha : p a = true)
    (hb : p b = false) (cs : List Char) :
    splitRuns p (a :: b :: cs) = [] :: splitRuns p (b :: cs) := by
  conv_lhs => rw [splitRuns.eq_def]
  simp [ha, hb]

theorem splitRuns_cons_of_not (p : Char → Bool) {a : Char} (hp : p a = false)
    {cs s rest} (h : splitRuns p cs = s :: rest) :
    splitRuns p (a :: cs) = (a :: s) :: rest := by
  conv_lhs => rw [splitRuns.eq_def]
  simp [hp, h]

theorem splitRuns_ne_nil (p : Char → Bool) : ∀ l, splitRuns p l ≠ [] := by
  intro l
  induction l with
  | nil => simp [splitRuns_nil]
  | cons c cs ih =>
    cases hp : p c with
    | false =>
      cases h : splitRuns p cs with
      | nil => exact absurd h ih
      | cons s rest =>
        rw [splitRuns_cons_of_not p hp h]
        simp
    | true =>
      cases cs with
      | nil =>
        rw [splitRuns_sep_nil hp]
        simp
      | cons b cs' =>
        cases hq : p b with
        | true =>
          rw [splitRuns_two_sep hp hq]
          exact ih
        | false =>
          rw [splitRuns_sep_cons hp hq]
          simp

theorem splitRuns_head_structure (p : Char → Bool) {a : Char} (hp : p a = false)
    (cs : List Char) :
    ∃ s rest, splitRuns p (a :: cs) = (a :: s) :: rest ∧ splitRuns p cs = s :: rest := by
  cases h : splitRuns p cs with
  | nil => exact absurd h (splitRuns_ne_nil p cs)
  | cons s rest => exact ⟨s, rest, splitRuns_cons_of_not p hp h, rfl⟩

theorem splitRuns_not_p (p : Char → Bool) :
    ∀ l, ∀ x ∈ splitRuns p l, ∀ c ∈ x, p c = false := by
  intro l
  induction l with
  | nil =>
    intro x hx c hc
    rw [splitRuns_nil, List.mem_singleton] at hx
    subst hx
    simp at hc
  | cons a cs ih =>
    intro x hx c hc
    cases hp : p a with
    | true =>
      cases cs with
      | nil =>
        rw [splitRuns_sep_nil hp] at hx
        rcases List.mem_cons.mp hx with h1 | h1
        · subst h1; simp at hc
        · rw [List.mem_singleton] at h1; subst h1; simp at hc
      | cons b cs' =>
        cases hq : p b with
        | true =>
          rw [splitRuns_two_sep hp hq] at hx
          exact ih x hx c hc
        | false =>
          rw [splitRuns_sep_cons hp hq] at hx
          rcases List.mem_cons.mp hx with h1 | h1
          · subst h1; simp at hc
          · exact ih x h1 c hc
    | false =>
      obtain ⟨s2, rest, hEq, hSub⟩ := splitRuns_head_structure p hp cs
      rw [hEq] at hx
      rcases List.mem_cons.mp hx with h1 | h1
      · subst h1
        rcases List.mem_cons.mp hc with h2 | h2
        · subst h2; exact hp
        · exact ih s2 (by rw [hSub]; exact List.mem_cons_self s2 rest) c h2
      · exact ih x (by rw [hSub]; exact List.mem_cons_of_mem s2 h1) c hc

theorem splitRuns_mid_ne_nil (p : Char → Bool) :
    ∀ l, ∀ x ∈ (splitRuns p l).tail.dropLast, x ≠ [] := by
  intro l
  induction l with
  | nil =>
    intro x hx
    rw [splitRuns_nil] at hx
    simp at hx
  | cons a cs ih =>
    intro x hx
    cases hp : p a with
    | true =>
      cases cs with
      | nil =>
        rw [splitRuns_sep_nil hp] at hx
        simp at hx
      | cons b cs' =>
        cases hq : p b with
        | true =>
          rw [splitRuns_two_sep hp hq] at hx
          exact ih x hx
        | false =>
          rw [splitRuns_sep_cons hp hq, List.tail_cons] at hx
          obtain ⟨s2, rest, hEq, hSub⟩ := splitRuns_head_structure p hq cs'
          rw [hEq] at hx
          cases rest with
          | nil => simp at hx
          | cons r rs =>
            rw [show ((b :: s2) :: r :: rs).dropLast = (b :: s2) :: (r :: rs).dropLast
              from rfl] at hx
            rcases List.mem_cons.mp hx with h1 | h1
            · subst h1; simp
            · refine ih x ?_
              rw [hEq, List.tail_cons]
              exact h1
    | false =>
      obtain ⟨s2, rest, hEq, hSub⟩ := splitRuns_head_structure p hp cs
      rw [hEq, List.tail_cons] at hx
      refine ih x ?_
      rw [hSub, List.tail_cons]
      exact hx

theorem splitRuns_append_block (p : Char → Bool) :
    ∀ a l, (∀ c ∈ a, p c = false) →
      splitRuns p (a ++ l) = (a ++ (splitRuns p l).headD []) :: (splitRuns p l).tail := by
  intro a
  induction a with
  | nil =>
    intro l _
    cases h : splitRuns p l with
    | nil => exact absurd h (splitRuns_ne_nil p l)
    | cons s rest => simp [h]
  | cons c a' ih =>
    intro l ha
    have hc : p c = false := ha c (List.mem_cons_self c a')
    have hrec := ih l (fun d hd => ha d (List.mem_cons_of_mem c hd))
    obtain ⟨s2, rest, hEq, hSub⟩ := splitRuns_head_structure p hc (a' ++ l)
    rw [List.cons_append, hEq]
    rw [hrec] at hSub
    injection hSub with h1 h2
    rw [← h1, ← h2]
    simp

theorem splitRuns_all_not_p (p : Char → Bool) (l : List Char)
    (h : ∀ c ∈ l, p c = false) : splitRuns p l = [l] := by
  have hb := splitRuns_append_block p l [] h
  simpa [splitRuns_nil] using hb

theorem joinSep_head (sep c0 : Char) (y' : List Char) (ts : List (List Char)) :
    ∃ J, joinSep sep ((c0 :: y') :: ts) = c0 :: J := by
  cases ts with
  | nil => exact ⟨y', rfl⟩
  | cons z zs => exact ⟨y' ++ sep :: joinSep sep (z :: zs), by simp [joinSep]⟩

theorem splitRuns_joinSep {p : Char → Bool} {sep : Char} (hsep : p sep = true) :
    ∀ ts, ts ≠ [] → (∀ x ∈ ts, ∀ c ∈ x, p c = false) → (∀ x ∈ ts.tail, x ≠ []) →
      splitRuns p (joinSep sep ts) = ts := by
  intro ts
  induction ts with
  | nil => intro h; exact absurd rfl h
  | cons x rest ih =>
    intro _ hall htail
    cases rest with
    | nil =>
      simp only [joinSep]
      exact splitRuns_all_not_p p x (hall x (List.mem_cons_self x []))
    | cons y rest' =>
      have hy : y ≠ [] := htail y (List.mem_cons_self y rest')
      obtain ⟨c0, y', rfl⟩ : ∃ c0 y', y = c0 :: y' := by
        cases y with
        | nil => exact absurd rfl hy
        | cons c0 y' => exact ⟨c0, y', rfl⟩
      have hc0 : p c0 = false := hall (c0 :: y') (by simp) c0 (by simp)
      obtain ⟨J, hJ⟩ := joinSep_head sep c0 y' rest'
      have hIH : splitRuns p (joinSep sep ((c0 :: y') :: rest')) = (c0 :: y') :: rest' :=
        ih (by simp) (fun z hz c hc => hall z (List.mem_cons_of_mem x hz) c hc)
          (fun z hz => htail z (List.mem_cons_of_mem (c0 :: y') hz))
      rw [show joinSep sep (x :: (c0 :: y') :: rest') =
        x ++ sep :: joinSep sep ((c0 :: y') :: rest') from rfl]
      rw [splitRuns_append_block p x _ (fun c hc => hall x (List.mem_cons_self x _) c hc)]
      rw [hJ, splitRuns_sep_cons hsep hc0]
      rw [← hJ, hIH]
      simp

theorem tail_take_eq {α : Type} (l : List α) (n : Nat) :
    (l.take n).tail = l.tail.take (n - 1) := by
  cases l <;> cases n <;> simp

/-- C7: after the truncation step the accumulated content has at most
10000 whitespace-split tokens; when the accumulated content had more than
10000 tokens it is truncated to exactly the cap, preserving the
earliest-collected tokens (the first 10000, in order). -/
theorem c7_truncation_cap (s : String) :
    (wordsOf (truncateContent s)).length ≤ 10000 ∧
      ((wordsOf s).length > 10000 →
        wordsOf (truncateContent s) = (wordsOf s).take 10000 ∧
          (wordsOf (truncateContent s)).length = 10000) := by
  by_cases h : (wordsOf s).length > 10000
  · have hlen : ((wordsOf s).take 10000).length = 10000 := by
      rw [List.length_take]
      omega
    have htr : truncateContent s = String.mk (joinSep ' ' ((wordsOf s).take 10000)) := by
      simp [truncateContent, h]
    have hwords : wordsOf (truncateContent s) = (wordsOf s).take 10000 := by
      rw [htr]
      show splitRuns jsWs (joinSep ' ' ((wordsOf s).take 10000)) = (wordsOf s).take 10000
      refine splitRuns_joinSep (by decide) _ ?_ ?_ ?_
      · intro hnil
        rw [hnil] at hlen
        simp at hlen
      · intro x hx c hc
        exact splitRuns_not_p jsWs s.toList x (List.take_subset 10000 (wordsOf s) hx) c hc
      · intro x hx
        rw [tail_take_eq] at hx
        have hsub : x ∈ (wordsOf s).tail.dropLast := by
          have h1 : (wordsOf s).tail.take (10000 - 1) =
              ((wordsOf s).tail.take ((wordsOf s).tail.length - 1)).take (10000 - 1) := by
            rw [List.take_take]
            have : (10000 - 1) ⊓ ((wordsOf s).tail.length - 1) = 10000 - 1 := by
              have : (wordsOf s).tail.length = (wordsOf s).length - 1 := by
                simp [List.length_tail]
              omega
            rw [this]
          rw [h1] at hx
          rw [List.dropLast_eq_take]
          exact List.take_subset _ _ hx
        exact splitRuns_mid_ne_nil jsWs s.toList x hsub
    refine ⟨?_, fun _ => ⟨hwords, by rw [hwords, hlen]⟩⟩
    rw [hwords, hlen]
  · have : truncateContent s = s := by
      simp [truncateContent, h]
    rw [this]
    exact ⟨by omega, fun hc => absurd hc h⟩

/-- A content string with exactly 10001 single-letter words. -/
def manyWords : String := String.mk (joinSep ' ' (List.replicate 10001 ['a']))

theorem wordsOf_manyWords : wordsOf manyWords = List.replicate 10001 ['a'] := by
  show splitRuns jsWs (joinSep ' ' (List.replicate 10001 ['a'])) =
    List.replicate 10001 ['a']
  refine splitRuns_joinSep (by decide) _ ?_ ?_ ?_
  · intro hnil
    have hlen : (List.replicate 10001 (['a'] : List Char)).length = 10001 :=
      List.length_replicate 10001 ['a']
    rw [hnil] at hlen
    simp at hlen
  · intro x hx c hc
    rw [List.eq_of_mem_replicate hx] at hc
    rw [List.mem_singleton] at hc
    subst hc
    decide
  · intro x hx
    rw [List.tail_replicate] at hx
    rw [List.eq_of_mem_replicate hx]
    simp

/-- Witness for C7 at a content string of 10001 words: the truncation
keeps exactly the first 10000. -/
theorem c7_witness :
    wordsOf (truncateContent manyWords) = (wordsOf manyWords).take 10000 ∧
      (wordsOf (truncateContent manyWords)).length = 10000 :=
  (c7_truncation_cap manyWords).2
    (by rw [wordsOf_manyWords, List.length_replicate]; omega)

/-- Witness for C3 at a concrete credential and outcome. -/
theorem c3_witness :
    ((searchWeb none SearchOutcome.raiseNet).result = Except.ok [] ∧
        (searchWeb none SearchOutcome.raiseNet).calls = 0) ∧
      (searchWeb (some "k") (SearchOutcome.resp false none)).result = Except.ok [] ∧
      (searchWeb (some "k") SearchOutcome.raiseNet).result = Except.error () :=
  c3_soft_and_hard_failures SearchOutcome.raiseNet "k" none

/-- Witness for C6 at a concrete environment. -/
theorem c6_witness :
    (collect
        { backend := fun _ _ => GenOutcome.respond none
          searchKey := some "k"
          searchOut := fun _ _ => SearchOutcome.resp true (some [some "a", some "b"])
          fetch := fun _ url => if url = "a" then "x" else "" } "q").links.Nodup :=
  c6_sources_nodup _ "q"

/-- Witness for C8 at a concrete environment. -/
theorem c8_witness :
    (collect
        { backend := fun _ _ => GenOutcome.respond none
          searchKey := some "k"
          searchOut := fun _ _ => SearchOutcome.resp true (some [some "a", some "b"])
          fetch := fun _ url => if url = "a" then "x" else "" } "q").passes ≤ 10 :=
  c8_pass_bound _ "q"

/-- Witness for C10 at a concrete environment and request. -/
theorem c10_witness :
    (statusTexts (responseFrames (POST
        { backend := fun _ _ => GenOutcome.respond (some "ok")
          searchKey := none
          searchOut := fun _ _ => SearchOutcome.resp true none
          fetch := fun _ _ => "" } false (some "a")))).Chain' (· ≠ ·) :=
  c10_status_dedup _ false (some "a")

end Route
